import Mathlib

/-!
Shallow embedding of the document-ingestion and provider-fallback core of the
joshbot repository (files `document_processor.py` and `content_generator.py`),
together with proofs settling the frozen claims about its specification.

Strings are modelled as `List Char`.  Python library primitives used by the
source (`str.strip`, `str.split`, `re.sub`, `json.loads`, the two greedy
regexes, `str.lower`, substring tests) are modelled by executable Lean
functions that mirror their documented behaviour on the relevant inputs.
-/

set_option maxRecDepth 100000

namespace JoshBot

/-- Whitespace as recognised by Python `str.strip` / regex `\s` on the ASCII
range (space, tab, newline, carriage return, vertical tab, form feed). -/
def isWS (c : Char) : Bool :=
  c == ' ' || c == '\t' || c == '\n' || c == '\r' || c == '\x0b' || c == '\x0c'

/-- Python truthiness of `s.strip()`: `blank s = true` iff the text consists
only of whitespace (this is the test `not s.strip()`). -/
def blank (s : List Char) : Bool :=
  s.all isWS

/-- Python `text.split("\x27\n\x27")`: split on every newline character,
keeping empty pieces (`"".split` gives one empty piece). -/
def splitOnNL : List Char → List (List Char)
  | [] => [[]]
  | c :: cs =>
    if c = '\n' then [] :: splitOnNL cs
    else
      match splitOnNL cs with
      | [] => [[c]]
      | l :: ls => (c :: l) :: ls

/-- Python `line.strip()`: drop whitespace from both ends. -/
def pyStrip (s : List Char) : List Char :=
  List.rdropWhile isWS (s.dropWhile isWS)

/-- One pass of `re.sub(r"\s+", " ", s)`: the flag records whether we are
inside a whitespace run whose single replacement space was already emitted. -/
def collapseAux : Bool → List Char → List Char
  | _, [] => []
  | inRun, c :: cs =>
    if isWS c then
      if inRun then collapseAux true cs
      else ' ' :: collapseAux true cs
    else c :: collapseAux false cs

/-- Python `re.sub(r"\s+", " ", s)`: every maximal whitespace run becomes a
single space. -/
def collapseWS (s : List Char) : List Char :=
  collapseAux false s

/-- Python `"\x27\n\x27".join(lines)`: concatenate the pieces with a single
newline between consecutive pieces. -/
def joinNL : List (List Char) → List Char
  | [] => []
  | [l] => l
  | l :: ls => l ++ '\n' :: joinNL ls

/-- Model of `DocumentProcessor._clean_text`: split on line boundaries, strip each
line, drop blank lines, rejoin with single newlines, collapse every remaining
whitespace run to a single space. -/
def cleanText (s : List Char) : List Char :=
  if s.isEmpty then []
  else
    collapseWS (joinNL (((splitOnNL s).map pyStrip).filter (fun l => !l.isEmpty)))

example : cleanText "  a  b \n\n c ".toList = "a b c".toList := by decide
example : cleanText "".toList = [] := by decide
example : cleanText " \t ".toList = [] := by decide

theorem mem_collapseAux {c : Char} :
    ∀ (b : Bool) (l : List Char), c ∈ collapseAux b l → c = ' ' ∨ isWS c = false := by
  intro b l
  induction l generalizing b with
  | nil => simp [collapseAux]
  | cons a rest ih =>
    intro h
    by_cases ha : isWS a
    · cases b with
      | true =>
        exact ih true (by simpa [collapseAux, ha] using h)
      | false =>
        rcases (by simpa [collapseAux, ha] using h : c = ' ' ∨ c ∈ collapseAux true rest) with
          h1 | h2
        · exact Or.inl h1
        · exact ih true h2
    · rcases (by simpa [collapseAux, ha] using h : c = a ∨ c ∈ collapseAux false rest) with
        h1 | h2
      · exact Or.inr (h1 ▸ by simpa using ha)
      · exact ih false h2

theorem head?_collapseAux_true :
    ∀ (l : List Char) (c : Char), (collapseAux true l).head? = some c → isWS c = false := by
  intro l
  induction l with
  | nil => intro c h; simp [collapseAux] at h
  | cons a rest ih =>
    intro c h
    by_cases ha : isWS a
    · exact ih c (by simpa [collapseAux, ha] using h)
    · have : a = c := by simpa [collapseAux, ha] using h
      simpa [← this] using ha

theorem chain'_collapseAux :
    ∀ (b : Bool) (l : List Char),
      List.Chain' (fun x y => ¬(isWS x = true ∧ isWS y = true)) (collapseAux b l) := by
  intro b l
  induction l generalizing b with
  | nil => simp [collapseAux]
  | cons a rest ih =>
    by_cases ha : isWS a
    · cases b with
      | true => simpa [collapseAux, ha] using ih true
      | false =>
        have hcons : collapseAux false (a :: rest) = ' ' :: collapseAux true rest := by
          simp [collapseAux, ha]
        rw [hcons, List.chain'_cons']
        refine ⟨?_, ih true⟩
        intro y hy
        have : isWS y = false := head?_collapseAux_true rest y hy
        simp [this]
    · have hcons : collapseAux b (a :: rest) = a :: collapseAux false rest := by
        simp [collapseAux, ha]
      rw [hcons, List.chain'_cons']
      refine ⟨?_, ih false⟩
      intro y _
      simp [show isWS a = false by simpa using ha]

theorem collapseAux_idem :
    ∀ (l : List Char) (b : Bool), collapseAux b (collapseAux b l) = collapseAux b l := by
  intro l
  induction l with
  | nil => intro b; simp [collapseAux]
  | cons a rest ih =>
    intro b
    by_cases ha : isWS a
    · cases b with
      | true => simpa [collapseAux, ha] using ih true
      | false =>
        have hsp : isWS ' ' = true := by decide
        simp [collapseAux, ha, hsp, ih true]
    · simp [collapseAux, ha, ih false]

theorem getLast?_cons_of_ne {α : Type} (a : α) {l : List α} (h : l ≠ []) :
    (a :: l).getLast? = l.getLast? := by
  cases l with
  | nil => exact absurd rfl h
  | cons x xs => exact List.getLast?_cons_cons

theorem getLast?_collapseAux :
    ∀ (l : List Char) (b : Bool) (c : Char),
      l.getLast? = some c → isWS c = false → (collapseAux b l).getLast? = some c := by
  intro l
  induction l with
  | nil => intro b c h _; simp at h
  | cons a rest ih =>
    intro b c h hc
    cases rest with
    | nil =>
      have hac : a = c := by simpa using h
      subst hac
      simp [collapseAux, show isWS a = false by simpa using hc]
    | cons x xs =>
      have hrest : (x :: xs).getLast? = some c := by
        simpa [List.getLast?_cons_cons] using h
      have hne : ∀ b', collapseAux b' (x :: xs) ≠ [] := by
        intro b' hnil
        have := ih b' c hrest hc
        rw [hnil] at this
        simp at this
      by_cases ha : isWS a
      · cases b with
        | true =>
          have : collapseAux true (a :: x :: xs) = collapseAux true (x :: xs) := by
            simp [collapseAux, ha]
          rw [this]; exact ih true c hrest hc
        | false =>
          have hstep : collapseAux false (a :: x :: xs) = ' ' :: collapseAux true (x :: xs) := by
            simp [collapseAux, ha]
          rw [hstep, getLast?_cons_of_ne _ (hne true)]
          exact ih true c hrest hc
      · have hstep : collapseAux b (a :: x :: xs) = a :: collapseAux false (x :: xs) := by
          simp [collapseAux, ha]
        rw [hstep, getLast?_cons_of_ne _ (hne false)]
        exact ih false c hrest hc

theorem splitOnNL_eq_self (l : List Char) (h : '\n' ∉ l) : splitOnNL l = [l] := by
  induction l with
  | nil => rfl
  | cons a rest ih =>
    have ha : a ≠ '\n' := fun hh => h (hh ▸ List.mem_cons_self a rest)
    have hrest : '\n' ∉ rest := fun hh => h (List.mem_cons_of_mem a hh)
    simp [splitOnNL, fun hh => ha (by simpa using hh), ih hrest]

theorem head?_dropWhile_ws :
    ∀ (l : List Char) (c : Char), (l.dropWhile isWS).head? = some c → isWS c = false := by
  intro l
  induction l with
  | nil => intro c h; simp at h
  | cons a rest ih =>
    intro c h
    by_cases ha : isWS a
    · exact ih c (by simpa [List.dropWhile_cons, ha] using h)
    · have : a = c := by simpa [List.dropWhile_cons, ha] using h
      simpa [← this] using ha

theorem head?_of_prefix {α : Type} {p l : List α} (h : p <+: l) (hp : p ≠ []) :
    l.head? = p.head? := by
  obtain ⟨t, rfl⟩ := h
  cases p with
  | nil => exact absurd rfl hp
  | cons a rest => simp

theorem head?_pyStrip (l : List Char) (c : Char) (h : (pyStrip l).head? = some c) :
    isWS c = false := by
  have hpre : pyStrip l <+: l.dropWhile isWS := by
    unfold pyStrip
    exact List.rdropWhile_prefix isWS _
  have hne : pyStrip l ≠ [] := by
    intro hnil; rw [hnil] at h; simp at h
  have := head?_of_prefix hpre hne
  exact head?_dropWhile_ws l c (by rw [this]; exact h)

theorem getLast?_pyStrip (l : List Char) (c : Char) (h : (pyStrip l).getLast? = some c) :
    isWS c = false := by
  have hne : pyStrip l ≠ [] := by
    intro hnil; rw [hnil] at h; simp at h
  have hlast : ¬ isWS ((pyStrip l).getLast hne) = true :=
    List.rdropWhile_last_not isWS (l.dropWhile isWS) hne
  have hc : (pyStrip l).getLast hne = c := by
    have := List.getLast?_eq_getLast (pyStrip l) hne
    rw [this] at h
    exact Option.some.inj h
  rw [hc] at hlast
  simpa using hlast

theorem pyStrip_eq_self (l : List Char)
    (h1 : ∀ c, l.head? = some c → isWS c = false)
    (h2 : ∀ c, l.getLast? = some c → isWS c = false) : pyStrip l = l := by
  have hdrop : l.dropWhile isWS = l := by
    cases l with
    | nil => rfl
    | cons a rest =>
      have := h1 a (by simp)
      simp [List.dropWhile_cons, this]
  unfold pyStrip
  rw [hdrop]
  rw [List.rdropWhile_eq_self_iff]
  intro hl hws
  have := h2 (l.getLast hl) (List.getLast?_eq_getLast l hl)
  rw [this] at hws
  exact Bool.false_ne_true hws

theorem getLast?_append_of_ne_nil {α : Type} (l : List α) {m : List α} (hm : m ≠ []) :
    (l ++ m).getLast? = m.getLast? := by
  induction l with
  | nil => simp
  | cons a as ih =>
    have hne : as ++ m ≠ [] := by
      intro hh
      exact hm (List.append_eq_nil.mp hh).2
    rw [List.cons_append, getLast?_cons_of_ne a hne, ih]

theorem joinNL_getLast? (L : List (List Char)) (hL : ∀ w ∈ L, w ≠ []) :
    ∀ (c : Char), (joinNL L).getLast? = some c →
      ∃ w ∈ L, w.getLast? = some c := by
  induction L with
  | nil => intro c h; simp [joinNL] at h
  | cons l ls ih =>
    intro c h
    cases ls with
    | nil =>
      exact ⟨l, by simp, by simpa [joinNL] using h⟩
    | cons m ms =>
      have hm : m ≠ [] := hL m (by simp)
      have hjoin_ne : joinNL (m :: ms) ≠ [] := by
        cases ms with
        | nil => simpa [joinNL] using hm
        | cons x xs =>
          simp only [joinNL]
          intro hh
          exact hm (by simpa using (List.append_eq_nil.mp hh).1
            )
      have hstep : joinNL (l :: m :: ms) = l ++ '\n' :: joinNL (m :: ms) := by
        simp [joinNL]
      rw [hstep] at h
      rw [getLast?_append_of_ne_nil l (by simp), getLast?_cons_of_ne _ hjoin_ne] at h
      obtain ⟨w, hw, hwl⟩ := ih (fun w hw => hL w (List.mem_cons_of_mem l hw)) c h
      exact ⟨w, List.mem_cons_of_mem l hw, hwl⟩

theorem joinNL_head? (l : List Char) (ls : List (List Char)) (hl : l ≠ []) :
    (joinNL (l :: ls)).head? = l.head? := by
  cases ls with
  | nil => simp [joinNL]
  | cons m ms =>
    have : joinNL (l :: m :: ms) = l ++ '\n' :: joinNL (m :: ms) := by simp [joinNL]
    rw [this]
    cases l with
    | nil => exact absurd rfl hl
    | cons a as => simp

theorem cleanText_structure (s : List Char) :
    cleanText s = [] ∨
      ∃ z : List Char, cleanText s = collapseWS z ∧ z ≠ [] ∧
        (∀ c, z.head? = some c → isWS c = false) ∧
        (∀ c, z.getLast? = some c → isWS c = false) := by
  by_cases hs : s.isEmpty
  · left; simp [cleanText, hs]
  · have hclean : cleanText s =
        collapseWS (joinNL (((splitOnNL s).map pyStrip).filter (fun l => !l.isEmpty))) := by
      simp [cleanText, hs]
    set L := ((splitOnNL s).map pyStrip).filter (fun l => !l.isEmpty) with hLdef
    have hmem : ∀ w ∈ L, (∃ o, w = pyStrip o) ∧ w ≠ [] := by
      intro w hw
      rw [hLdef, List.mem_filter] at hw
      obtain ⟨hwm, hwne⟩ := hw
      obtain ⟨o, _, rfl⟩ := List.mem_map.mp hwm
      refine ⟨⟨o, rfl⟩, ?_⟩
      simpa using hwne
    cases hL : L with
    | nil =>
      left
      rw [hclean, hL]
      rfl
    | cons l ls =>
      right
      refine ⟨joinNL L, hclean, ?_, ?_, ?_⟩
      · have hlne : l ≠ [] := (hmem l (by rw [hL]; simp)).2
        rw [hL]
        have := joinNL_head? l ls hlne
        intro hnil
        rw [hnil] at this
        cases l with
        | nil => exact hlne rfl
        | cons a as => simp at this
      · intro c hc
        have hlne : l ≠ [] := (hmem l (by rw [hL]; simp)).2
        rw [hL, joinNL_head? l ls hlne] at hc
        obtain ⟨⟨o, rfl⟩, _⟩ := hmem l (by rw [hL]; simp)
        exact head?_pyStrip o c hc
      · intro c hc
        have hLne : ∀ w ∈ L, w ≠ [] := fun w hw => (hmem w hw).2
        obtain ⟨w, hw, hwl⟩ := joinNL_getLast? L hLne c hc
        obtain ⟨⟨o, rfl⟩, _⟩ := hmem w hw
        exact getLast?_pyStrip o c hwl

theorem cleanText_head? (s : List Char) (c : Char)
    (h : (cleanText s).head? = some c) : isWS c = false := by
  rcases cleanText_structure s with h0 | ⟨z, hz, hne, hh, _⟩
  · rw [h0] at h; simp at h
  · cases z with
    | nil => exact absurd rfl hne
    | cons a zs =>
      have ha : isWS a = false := hh a (by simp)
      rw [hz] at h
      simp only [collapseWS, collapseAux, ha] at h
      simp at h
      rw [← h]
      exact ha

theorem cleanText_getLast? (s : List Char) (c : Char)
    (h : (cleanText s).getLast? = some c) : isWS c = false := by
  rcases cleanText_structure s with h0 | ⟨z, hz, hne, _, hl⟩
  · rw [h0] at h; simp at h
  · have hzl : z.getLast? = some (z.getLast hne) := List.getLast?_eq_getLast z hne
    have hd : isWS (z.getLast hne) = false := hl _ hzl
    have := getLast?_collapseAux z false (z.getLast hne) hzl hd
    rw [hz] at h
    rw [collapseWS] at h
    rw [this] at h
    rw [← Option.some.inj h]
    exact hd

theorem nl_not_mem_cleanText (s : List Char) : '\n' ∉ cleanText s := by
  rcases cleanText_structure s with h0 | ⟨z, hz, _, _, _⟩
  · rw [h0]; simp
  · rw [hz]
    intro hmem
    rcases mem_collapseAux false z hmem with h1 | h2
    · exact absurd h1 (by decide)
    · exact absurd h2 (by decide)

theorem cleanText_chain' (s : List Char) :
    List.Chain' (fun x y => ¬(isWS x = true ∧ isWS y = true)) (cleanText s) := by
  rcases cleanText_structure s with h0 | ⟨z, hz, _, _, _⟩
  · rw [h0]; simp
  · rw [hz]; exact chain'_collapseAux false z

/-- Claim C3: the text cleaner of `DocumentProcessor._clean_text` is
idempotent: cleaning already-cleaned text changes nothing. -/
theorem text_cleaner_idempotent (s : List Char) :
    cleanText (cleanText s) = cleanText s := by
  rcases cleanText_structure s with h0 | ⟨z, hz, hne, hh, _⟩
  · rw [h0]; rfl
  · obtain ⟨a, zs, rfl⟩ : ∃ a zs, z = a :: zs := by
      cases z with
      | nil => exact absurd rfl hne
      | cons a zs => exact ⟨a, zs, rfl⟩
    have ha : isWS a = false := hh a (by simp)
    have hy_cons : cleanText s = a :: collapseAux false zs := by
      rw [hz]; simp [collapseWS, collapseAux, ha]
    have hyne : cleanText s ≠ [] := by rw [hy_cons]; simp
    have hnl : '\n' ∉ cleanText s := nl_not_mem_cleanText s
    have h1 : splitOnNL (cleanText s) = [cleanText s] :=
      splitOnNL_eq_self (cleanText s) hnl
    have h2 : pyStrip (cleanText s) = cleanText s :=
      pyStrip_eq_self (cleanText s) (cleanText_head? s) (cleanText_getLast? s)
    have h3 : (((splitOnNL (cleanText s)).map pyStrip).filter (fun l => !l.isEmpty))
        = [cleanText s] := by
      rw [h1]
      simp [h2, hyne]
    have hyE : (cleanText s).isEmpty = false := by
      rw [hy_cons]; rfl
    have hstep : ∀ y : List Char, y.isEmpty = false →
        cleanText y =
          collapseWS (joinNL (((splitOnNL y).map pyStrip).filter (fun l => !l.isEmpty))) := by
      intro y hy
      simp [cleanText, hy]
    rw [hstep (cleanText s) hyE, h3]
    have h5 : joinNL [cleanText s] = cleanText s := rfl
    rw [h5, hz]
    simp only [collapseWS]
    exact collapseAux_idem (a :: zs) false

/-! Embedding of `DocumentProcessor` extraction.  A PDF page of the PyPDF2
fallback reader is `Option (List Char)`: `none` models a page whose
`extract_text()` raises (the page is logged and skipped), `some t` a page
returning text `t`. -/

instance exceptDecEq {ε α : Type} [DecidableEq ε] [DecidableEq α] :
    DecidableEq (Except ε α) := fun x y =>
  match x, y with
  | .ok a, .ok b =>
    match decEq a b with
    | isTrue h => isTrue (by rw [h])
    | isFalse h => isFalse (fun hh => h (by injection hh))
  | .error a, .error b =>
    match decEq a b with
    | isTrue h => isTrue (by rw [h])
    | isFalse h => isFalse (fun hh => h (by injection hh))
  | .ok _, .error _ => isFalse (fun hh => by injection hh)
  | .error _, .ok _ => isFalse (fun hh => by injection hh)

def readErrHead : List Char := "Error reading PDF file: ".toList

def encryptedMsg : List Char :=
  "PDF is password-protected. Please provide an unprotected version.".toList

def noTextPdfMsg : List Char :=
  "No readable text found in PDF. The document might be image-based or corrupted.".toList

def failHead : List Char := "Failed to extract text from document: ".toList

def pageHeader (n : Nat) : List Char :=
  ("\n--- Page " ++ Nat.repr n ++ " ---\n").toList

def imagesHeader (n : Nat) : List Char :=
  ("\n--- Images from Page " ++ Nat.repr n ++ " ---\n").toList

/-- The page loop of `DocumentProcessor._extract_from_pdf`: pages are
numbered from `i + 1`; a raising page is skipped, a blank page contributes
nothing, a non-blank page contributes a page marker plus its text. -/
def buildPdfBody : Nat → List (Option (List Char)) → List Char
  | _, [] => []
  | i, p :: rest =>
    (match p with
     | none => []
     | some t => if blank t then [] else pageHeader (i + 1) ++ t ++ ['\n'])
    ++ buildPdfBody (i + 1) rest

/-- Model of `DocumentProcessor._extract_from_pdf` (the PyPDF2 secondary strategy):
fail on an encrypted document, fail when no readable text remains, otherwise
clean and return the assembled text.  Errors carry the wrapped message
produced by the enclosing `except` clause. -/
def extractFromPdf (encrypted : Bool) (pages : List (Option (List Char))) :
    Except (List Char) (List Char) :=
  if encrypted then .error (readErrHead ++ encryptedMsg)
  else
    let body := buildPdfBody 0 pages
    if blank body then .error (readErrHead ++ noTextPdfMsg)
    else .ok (cleanText body)

theorem buildPdfBody_skip :
    ∀ (ps : List (Option (List Char))) (k i : Nat), ps.get? i = some none →
      buildPdfBody k (ps.set i (some [])) = buildPdfBody k ps := by
  intro ps
  induction ps with
  | nil => intro k i h; simp at h
  | cons p rest ih =>
    intro k i h
    cases i with
    | zero =>
      have hp : p = none := by simpa using h
      subst hp
      simp [buildPdfBody, blank]
    | succ j =>
      have hj : rest.get? j = some none := by simpa using h
      simp only [List.set]
      simp [buildPdfBody, ih (k + 1) j hj]

/-- The 20-page document of claim C4: every page returns the short text
`xN`, except page 7 whose extraction raises. -/
def pdf20 : List (Option (List Char)) :=
  [some "x1".toList, some "x2".toList, some "x3".toList, some "x4".toList,
   some "x5".toList, some "x6".toList, none, some "x8".toList,
   some "x9".toList, some "x10".toList, some "x11".toList, some "x12".toList,
   some "x13".toList, some "x14".toList, some "x15".toList, some "x16".toList,
   some "x17".toList, some "x18".toList, some "x19".toList, some "x20".toList]

def expected20 : List Char :=
  ("--- Page 1 --- x1 --- Page 2 --- x2 --- Page 3 --- x3 --- Page 4 --- x4 " ++
   "--- Page 5 --- x5 --- Page 6 --- x6 --- Page 8 --- x8 --- Page 9 --- x9 " ++
   "--- Page 10 --- x10 --- Page 11 --- x11 --- Page 12 --- x12 --- Page 13 --- x13 " ++
   "--- Page 14 --- x14 --- Page 15 --- x15 --- Page 16 --- x16 --- Page 17 --- x17 " ++
   "--- Page 18 --- x18 --- Page 19 --- x19 --- Page 20 --- x20").toList

/-- Claim C4: in the secondary PDF strategy a page whose extraction raises is
skipped without aborting the document (it contributes exactly as much as a
blank page), and the concrete 20-page document with a raising page 7 still
returns the text of pages 1 to 6 and 8 to 20 in page order. -/
theorem pdf_fallback_skips_bad_page (ps : List (Option (List Char))) (i : Nat)
    (h : ps.get? i = some none) :
    extractFromPdf false ps = extractFromPdf false (ps.set i (some [])) ∧
      extractFromPdf false pdf20 = .ok expected20 := by
  constructor
  · unfold extractFromPdf
    rw [buildPdfBody_skip ps 0 i h]
  · decide

theorem pdf_fallback_skips_bad_page_witness :
    pdf20.get? 6 = some none ∧
      extractFromPdf false pdf20 = extractFromPdf false (pdf20.set 6 (some [])) ∧
      extractFromPdf false pdf20 = .ok expected20 :=
  ⟨by decide, (pdf_fallback_skips_bad_page pdf20 6 (by decide)).1,
    (pdf_fallback_skips_bad_page pdf20 6 (by decide)).2⟩

/-- One page of the PyMuPDF primary strategy: `text` is `page.get_text`,
`images` is the combined output of `_extract_text_from_images_on_page`
(that helper catches every per-image failure internally and at worst
returns an empty string, so it is modelled by its resulting text). -/
structure PrimPage where
  text : List Char
  images : List Char
  deriving DecidableEq

/-- An incoming PDF as the two readers see it: `fitzAvailable` is whether
PyMuPDF imported, `primary` is `none` when opening/processing with PyMuPDF
raises and otherwise the per-page primary results, `useOcr` mirrors
`self.use_ocr`, `encrypted` is PyPDF2 `is_encrypted`, and `pages` are the
per-page PyPDF2 results. -/
structure PdfInput where
  fitzAvailable : Bool
  primary : Option (List PrimPage)
  useOcr : Bool
  encrypted : Bool
  pages : List (Option (List Char))

/-- The page loop of `_extract_from_pdf_advanced`: marker plus native text
for a non-blank page, then marker plus OCR text when OCR is enabled and the
image text is non-blank. -/
def buildAdvancedBody (useOcr : Bool) : Nat → List PrimPage → List Char
  | _, [] => []
  | i, pg :: rest =>
    (if blank pg.text then [] else pageHeader (i + 1) ++ pg.text ++ ['\n'])
      ++ (if useOcr && !blank pg.images then imagesHeader (i + 1) ++ pg.images ++ ['\n']
          else [])
      ++ buildAdvancedBody useOcr (i + 1) rest

/-- Model of `DocumentProcessor._extract_from_pdf_advanced`: missing PyMuPDF or a
raising primary strategy falls back to `_extract_from_pdf`; a primary pass
that yields only blank text also falls back (the `except` around that inner
call re-runs the same deterministic fallback, hence the double `match`);
otherwise the cleaned primary text is returned. -/
def extractFromPdfAdvanced (d : PdfInput) : Except (List Char) (List Char) :=
  if !d.fitzAvailable then extractFromPdf d.encrypted d.pages
  else
    match d.primary with
    | none => extractFromPdf d.encrypted d.pages
    | some pgs =>
      let body := buildAdvancedBody d.useOcr 0 pgs
      if blank body then
        match extractFromPdf d.encrypted d.pages with
        | .ok t => .ok t
        | .error _ => extractFromPdf d.encrypted d.pages
      else .ok (cleanText body)

def legacyDocMsg : List Char :=
  "Legacy .doc files are not fully supported. Please convert to .docx format.".toList

def readDocHead : List Char := "Error reading document: ".toList

def noTextDocMsg : List Char := "No readable text found in document.".toList

/-- The parsed structure python-docx reports for a document: paragraph texts
and, per table, per row, the cell texts. -/
structure DocxContent where
  paragraphs : List (List Char)
  tables : List (List (List (List Char)))

/-- An incoming DOC/DOCX file: `isDocExt` is `file_path.lower().endswith(".doc")`,
`parsed` is `none` when `Document(file_path)` raises (carrying that
exception text in `parseErr`), otherwise the parsed content. -/
structure DocxFile where
  isDocExt : Bool
  parsed : Option DocxContent
  parseErr : List Char

/-- Paragraph loop of `_extract_from_docx`: non-blank paragraphs followed by
a newline each. -/
def docxParagraphText : List (List Char) → List Char
  | [] => []
  | p :: rest =>
    (if blank p then [] else p ++ ['\n']) ++ docxParagraphText rest

/-- Row loop of `_extract_from_docx`: non-blank cells followed by a space
each, then a newline per row. -/
def docxRowText : List (List Char) → List Char
  | [] => []
  | c :: rest => (if blank c then [] else c ++ [' ']) ++ docxRowText rest

def docxTableText : List (List (List Char)) → List Char
  | [] => []
  | row :: rest => docxRowText row ++ ['\n'] ++ docxTableText rest

def docxTablesText : List (List (List (List Char))) → List Char
  | [] => []
  | t :: rest => docxTableText t ++ docxTablesText rest

def buildDocxText (c : DocxContent) : List Char :=
  docxParagraphText c.paragraphs ++ docxTablesText c.tables

/-- Model of `DocumentProcessor._extract_from_docx`: any failure (including the
"no readable text" raise) is re-raised as the legacy-DOC message when the
extension is `.doc`, and as a generic reading error otherwise; success
returns the cleaned text. -/
def extractFromDocx (f : DocxFile) : Except (List Char) (List Char) :=
  match f.parsed with
  | none => .error (if f.isDocExt then legacyDocMsg else readDocHead ++ f.parseErr)
  | some c =>
    let t := buildDocxText c
    if blank t then
      .error (if f.isDocExt then legacyDocMsg else readDocHead ++ noTextDocMsg)
    else .ok (cleanText t)

/-- A file handed to `DocumentProcessor.extract_text`, already dispatched on
its lowercased extension. -/
inductive FileInput where
  | pdfFile (d : PdfInput)
  | docFile (f : DocxFile)
  | unsupported (ext : List Char)

def unsupportedMsg (ext : List Char) : List Char :=
  "Unsupported file format: ".toList ++ ext

/-- Model of `DocumentProcessor.extract_text`: dispatch on extension; every failure
is re-wrapped with the outer "Failed to extract text" message. -/
def extractText : FileInput → Except (List Char) (List Char)
  | .pdfFile d =>
    match extractFromPdfAdvanced d with
    | .ok t => .ok t
    | .error m => .error (failHead ++ m)
  | .docFile f =>
    match extractFromDocx f with
    | .ok t => .ok t
    | .error m => .error (failHead ++ m)
  | .unsupported ext => .error (failHead ++ unsupportedMsg ext)

/-- Claim C5: an encrypted PDF that reaches the secondary strategy (PyMuPDF
missing, raising, or yielding only blank text, which is what an encrypted
document produces there) fails with the password-protected error and yields
no partial text, also through `extract_text`. -/
theorem encrypted_pdf_fails (d : PdfInput) (henc : d.encrypted = true)
    (hprim : d.fitzAvailable = false ∨ d.primary = none ∨
      (∀ pgs, d.primary = some pgs → blank (buildAdvancedBody d.useOcr 0 pgs) = true)) :
    extractFromPdfAdvanced d = .error (readErrHead ++ encryptedMsg) ∧
      (∀ t, extractFromPdfAdvanced d ≠ .ok t) ∧
      extractText (.pdfFile d) = .error (failHead ++ (readErrHead ++ encryptedMsg)) := by
  have hfb : extractFromPdf d.encrypted d.pages = .error (readErrHead ++ encryptedMsg) := by
    rw [henc]
    rfl
  have hmain : extractFromPdfAdvanced d = .error (readErrHead ++ encryptedMsg) := by
    unfold extractFromPdfAdvanced
    rcases hprim with h1 | h2 | h3
    · rw [h1, hfb]
      rfl
    · rw [h2]
      by_cases hfa : d.fitzAvailable <;> simp [hfa, hfb]
    · cases hp : d.primary with
      | none =>
        by_cases hfa : d.fitzAvailable <;> simp [hfa, hfb]
      | some pgs =>
        have hblank := h3 pgs hp
        by_cases hfa : d.fitzAvailable <;> simp [hfa, hfb, hblank]
  refine ⟨hmain, ?_, ?_⟩
  · intro t ht
    rw [hmain] at ht
    exact Except.noConfusion ht
  · simp only [extractText]
    rw [hmain]

theorem encrypted_pdf_fails_witness :
    extractFromPdfAdvanced ⟨true, none, true, true, [some "x".toList]⟩ =
        .error (readErrHead ++ encryptedMsg) ∧
      extractText (.pdfFile ⟨true, none, true, true, [some "x".toList]⟩) =
        .error (failHead ++ (readErrHead ++ encryptedMsg)) :=
  ⟨(encrypted_pdf_fails ⟨true, none, true, true, [some "x".toList]⟩ rfl
      (Or.inr (Or.inl rfl))).1,
    (encrypted_pdf_fails ⟨true, none, true, true, [some "x".toList]⟩ rfl
      (Or.inr (Or.inl rfl))).2.2⟩

/-- Claim C8: a legacy `.doc` file that python-docx cannot parse fails with
the legacy-format message — a non-empty, descriptive error — and never
returns text (in particular never an empty string), also through
`extract_text`. -/
theorem legacy_doc_rejected (f : DocxFile) (hext : f.isDocExt = true)
    (hparse : f.parsed = none) :
    extractFromDocx f = .error legacyDocMsg ∧ legacyDocMsg ≠ [] ∧
      (∀ t, extractFromDocx f ≠ .ok t) ∧
      extractText (.docFile f) = .error (failHead ++ legacyDocMsg) := by
  have hmain : extractFromDocx f = .error legacyDocMsg := by
    unfold extractFromDocx
    rw [hparse, hext]
    rfl
  refine ⟨hmain, by decide, ?_, ?_⟩
  · intro t ht
    rw [hmain] at ht
    exact Except.noConfusion ht
  · simp only [extractText]
    rw [hmain]

theorem legacy_doc_rejected_witness :
    extractFromDocx ⟨true, none, "err".toList⟩ = .error legacyDocMsg ∧
      extractText (.docFile ⟨true, none, "err".toList⟩) = .error (failHead ++ legacyDocMsg) :=
  ⟨(legacy_doc_rejected ⟨true, none, "err".toList⟩ rfl rfl).1,
    (legacy_doc_rejected ⟨true, none, "err".toList⟩ rfl rfl).2.2.2⟩

theorem extractFromPdf_ok_form (enc : Bool) (pages : List (Option (List Char)))
    (t : List Char) (h : extractFromPdf enc pages = .ok t) : ∃ s, t = cleanText s := by
  unfold extractFromPdf at h
  by_cases he : enc
  · simp [he] at h
  · simp only [he, if_false, Bool.false_eq_true] at h
    by_cases hb : blank (buildPdfBody 0 pages)
    · simp [hb] at h
    · simp only [hb, if_false, Bool.false_eq_true, Except.ok.injEq] at h
      exact ⟨buildPdfBody 0 pages, h.symm⟩

theorem extractFromPdfAdvanced_ok_form (d : PdfInput) (t : List Char)
    (h : extractFromPdfAdvanced d = .ok t) : ∃ s, t = cleanText s := by
  unfold extractFromPdfAdvanced at h
  by_cases hfa : d.fitzAvailable
  · rw [hfa] at h
    rw [if_neg (by simp)] at h
    cases hp : d.primary with
    | none =>
      rw [hp] at h
      exact extractFromPdf_ok_form d.encrypted d.pages t h
    | some pgs =>
      rw [hp] at h
      simp only at h
      by_cases hb : blank (buildAdvancedBody d.useOcr 0 pgs)
      · rw [if_pos hb] at h
        cases hfb : extractFromPdf d.encrypted d.pages with
        | ok u =>
          rw [hfb] at h
          have hut : u = t := by
            have h2 : Except.ok (ε := List Char) u = Except.ok t := h
            injection h2
          exact extractFromPdf_ok_form d.encrypted d.pages t (hut ▸ hfb)
        | error m =>
          rw [hfb] at h
          exact Except.noConfusion
            (show (Except.error m : Except (List Char) (List Char)) = Except.ok t from h)
      · rw [if_neg hb] at h
        have h2 : cleanText (buildAdvancedBody d.useOcr 0 pgs) = t := by injection h
        exact ⟨_, h2.symm⟩
  · have hfa2 : d.fitzAvailable = false := by simpa using hfa
    rw [hfa2] at h
    rw [if_pos (by simp)] at h
    exact extractFromPdf_ok_form d.encrypted d.pages t h

theorem extractFromDocx_ok_form (f : DocxFile) (t : List Char)
    (h : extractFromDocx f = .ok t) : ∃ s, t = cleanText s := by
  unfold extractFromDocx at h
  cases hp : f.parsed with
  | none => rw [hp] at h; simp at h
  | some c =>
    rw [hp] at h
    simp only at h
    by_cases hb : blank (buildDocxText c)
    · simp [hb] at h
    · simp only [hb, Bool.false_eq_true, if_false, Except.ok.injEq] at h
      exact ⟨buildDocxText c, h.symm⟩

theorem extractText_ok_form (f : FileInput) (t : List Char)
    (h : extractText f = .ok t) : ∃ s, t = cleanText s := by
  cases f with
  | pdfFile d =>
    simp only [extractText] at h
    cases hi : extractFromPdfAdvanced d with
    | ok u =>
      rw [hi] at h
      have : u = t := by simpa using h
      exact extractFromPdfAdvanced_ok_form d t (this ▸ hi)
    | error m => rw [hi] at h; simp at h
  | docFile g =>
    simp only [extractText] at h
    cases hi : extractFromDocx g with
    | ok u =>
      rw [hi] at h
      have : u = t := by simpa using h
      exact extractFromDocx_ok_form g t (this ▸ hi)
    | error m => rw [hi] at h; simp at h
  | unsupported ext => simp [extractText] at h

/-- Claim C10: the text returned by every successful `extract_text` path is
cleaned text: it contains no newline, no run of two adjacent whitespace
characters, and neither starts nor ends with whitespace — a single
space-separated line with the page and image markers inline. -/
theorem full_text_single_line (f : FileInput) (t : List Char)
    (h : extractText f = .ok t) :
    ('\n' ∉ t) ∧
      List.Chain' (fun x y => ¬(isWS x = true ∧ isWS y = true)) t ∧
      (∀ c, t.head? = some c → isWS c = false) ∧
      (∀ c, t.getLast? = some c → isWS c = false) := by
  obtain ⟨s, rfl⟩ := extractText_ok_form f t h
  exact ⟨nl_not_mem_cleanText s, cleanText_chain' s, cleanText_head? s, cleanText_getLast? s⟩

def demoDocx : DocxFile :=
  ⟨false, some ⟨["hello".toList, "world".toList], []⟩, []⟩

theorem full_text_single_line_witness :
    extractText (.docFile demoDocx) = .ok "hello world".toList ∧
      '\n' ∉ "hello world".toList ∧
      (∀ c, "hello world".toList.head? = some c → isWS c = false) :=
  ⟨by decide, (full_text_single_line (.docFile demoDocx) "hello world".toList (by decide)).1,
    (full_text_single_line (.docFile demoDocx) "hello world".toList (by decide)).2.2.1⟩

/-! Embedding of `ContentGenerator`.  The constructor `loc` models the
source's string `"local"` (a Lean keyword).  A remote provider call is a
function `beh` from the prompt and the provider to `Option (List Char)`:
`none` models a missing client or a raised exception, `some s` a returned
response text. -/

inductive Provider where
  | gemini
  | claude
  | openai
  | loc
  deriving DecidableEq, Repr

/-- The fixed ranking of `_get_best_available_provider`. -/
def priorityOrder : List Provider := [.gemini, .claude, .openai, .loc]

/-- Process configuration seen by `_initialize_providers`: whether each
provider's API key environment variable is non-empty, and whether its client
constructor succeeds. -/
structure ProviderEnv where
  geminiKey : Bool
  geminiInitOk : Bool
  claudeKey : Bool
  claudeInitOk : Bool
  openaiKey : Bool
  openaiInitOk : Bool

/-- Model of `ContentGenerator._initialize_providers`: append each credentialed
provider whose client initialises, in the fixed source order; fall back to
the local provider when the list stays empty. -/
def initProviders (env : ProviderEnv) : List Provider :=
  let avail :=
    (if env.geminiKey && env.geminiInitOk then [Provider.gemini] else [])
      ++ (if env.claudeKey && env.claudeInitOk then [Provider.claude] else [])
      ++ (if env.openaiKey && env.openaiInitOk then [Provider.openai] else [])
  if avail.isEmpty then [Provider.loc] else avail

/-- Model of `ContentGenerator._get_best_available_provider`: first provider of the
priority order present in the available list, defaulting to local. -/
def getBestAvailableProvider (avail : List Provider) : Provider :=
  (priorityOrder.find? (fun p => avail.contains p)).getD Provider.loc

def lowerStr (s : List Char) : List Char := s.map Char.toLower

/-- Python `pat in s` on strings: substring containment. -/
def isSubstr (pat s : List Char) : Bool :=
  s.tails.any (fun t => pat.isPrefixOf t)

def questionsKeyword : List Char := "questions".toList

def flashKeyword : List Char := "flash".toList

def summarKeyword : List Char := "summar".toList

/-- Output of `json.dumps` in `_create_template_questions`. -/
def templateQuestions : List Char :=
  ("[\x7b\"type\": \"conceptual\", \"question\": \"What are the main concepts covered in this document?\", \"answer\": \"Please review the document to identify key concepts.\", \"explanation\": \"This is a template question. Please add API keys for AI-generated content.\"\x7d, \x7b\"type\": \"application\", \"question\": \"How can the concepts in this document be applied in engineering practice?\", \"answer\": \"Consider practical applications based on the document content.\", \"explanation\": \"This is a template question. Please add API keys for AI-generated content.\"\x7d]").toList

/-- Output of `json.dumps` in `_create_template_flashcards`. -/
def templateFlashcards : List Char :=
  ("[\x7b\"term\": \"Key Concept 1\", \"definition\": \"Please review the document to identify key terms and definitions.\", \"explanation\": \"This is a template flashcard. Please add API keys for AI-generated content.\"\x7d, \x7b\"term\": \"Key Concept 2\", \"definition\": \"Please review the document to identify key terms and definitions.\", \"explanation\": \"This is a template flashcard. Please add API keys for AI-generated content.\"\x7d]").toList

/-- Output of `json.dumps` in `_create_template_summary` (`ensure_ascii`
escapes the bullet as `\\u2022` and the newline as `\\n`). -/
def templateSummary : List Char :=
  ("\x7b\"key_concepts\": \"\\u2022 Please add API keys to generate AI-powered summaries\\n\\u2022 Template mode provides basic structure only\", \"main_summary\": \"This is a template summary. To get AI-generated summaries with detailed analysis, please add API keys for Google Gemini (free), Anthropic Claude, or OpenAI.\", \"engineering_applications\": \"Please add API keys to generate specific engineering applications.\", \"formulas\": \"Please add API keys to extract and explain mathematical formulas.\"\x7d").toList

/-- Model of `ContentGenerator._generate_local_content`: keyword dispatch over the
lowercased prompt. -/
def generateLocalContent (prompt : List Char) : List Char :=
  if isSubstr questionsKeyword (lowerStr prompt) then templateQuestions
  else if isSubstr flashKeyword (lowerStr prompt) then templateFlashcards
  else if isSubstr summarKeyword (lowerStr prompt) then templateSummary
  else []

/-- One provider call inside `_generate_with_provider`: the local provider
deterministically returns template content and never raises; a remote
provider behaves as `beh` says. -/
def callProvider (beh : List Char → Provider → Option (List Char))
    (prompt : List Char) : Provider → Option (List Char)
  | .loc => some (generateLocalContent prompt)
  | p => beh prompt p

/-- Model of `ContentGenerator._generate_with_provider`, fuelled (the source
function can recurse forever; exhausted fuel, `none`, models
non-termination).  On a failed call the source recurses on
`[p for p in self.available_providers if p != provider][0]` and returns the
empty string when no other provider remains. -/
def generateWithProvider (beh : List Char → Provider → Option (List Char))
    (avail : List Provider) (prompt : List Char) :
    Nat → Provider → Option (List Char)
  | 0, _ => none
  | fuel + 1, p =>
    match callProvider beh prompt p with
    | some s => some s
    | none =>
      match avail.filter (fun q => q != p) with
      | [] => some []
      | q :: _ => generateWithProvider beh avail prompt fuel q

/-- Model of `_generate_with_provider` instrumented with the list of providers
attempted, in order (each failed attempt is also the one whose failure
`st.error` records). -/
def generateVisits (beh : List Char → Provider → Option (List Char))
    (avail : List Provider) (prompt : List Char) :
    Nat → Provider → List Provider × Option (List Char)
  | 0, _ => ([], none)
  | fuel + 1, p =>
    match callProvider beh prompt p with
    | some s => ([p], some s)
    | none =>
      match avail.filter (fun q => q != p) with
      | [] => ([p], some [])
      | q :: _ =>
        let r := generateVisits beh avail prompt fuel q
        (p :: r.1, r.2)

theorem generateVisits_snd (beh : List Char → Provider → Option (List Char))
    (avail : List Provider) (prompt : List Char) :
    ∀ (fuel : Nat) (p : Provider),
      (generateVisits beh avail prompt fuel p).2 =
        generateWithProvider beh avail prompt fuel p := by
  intro fuel
  induction fuel with
  | zero => intro p; rfl
  | succ n ih =>
    intro p
    rw [generateVisits, generateWithProvider]
    cases callProvider beh prompt p with
    | some s => rfl
    | none =>
      cases avail.filter (fun q => q != p) with
      | nil => rfl
      | cons q rest => simpa using ih q

/-- The fixed part of the `generate_questions_answers` prompt, up to and
including the line before the interpolated document text. -/
def qaPromptHead : List Char :=
  ("You are an expert engineering educator. Based on the following text, generate comprehensive study questions for engineering students.\n\nCreate a variety of question types:\n1. Multiple choice questions (4 options each)\n2. Short answer questions  \n3. Conceptual questions\n4. Application-based questions\n\nFocus on:\n- Key engineering concepts and principles\n- Mathematical formulas and derivations\n- Practical applications\n- Problem-solving approaches\n- Critical thinking aspects\n\nFor each question, provide:\n- Question type\n- The question itself\n- Options (for multiple choice)\n- Correct answer\n- Detailed explanation\n\nGenerate 8-12 questions total. Return the response as a JSON array with this format:\n[\n    \x7b\n        \"type\": \"multiple_choice\" | \"short_answer\" | \"conceptual\" | \"application\",\n        \"question\": \"Question text here\",\n        \"options\": [\"A\", \"B\", \"C\", \"D\"] (only for multiple choice),\n        \"answer\": \"Correct answer\",\n        \"explanation\": \"Detailed explanation\"\n    \x7d\n]\n\nDocument text:\n").toList

/-- The fixed part of the `generate_flash_cards` prompt. -/
def flashPromptHead : List Char :=
  ("You are an expert engineering educator. Based on the following text, create comprehensive flash cards for engineering students.\n\nFocus on:\n- Key engineering terms and definitions\n- Important concepts and principles\n- Mathematical formulas and their meanings\n- Units and measurements\n- Process descriptions\n- Technical terminology\n\nFor each flash card, provide:\n- Term/concept (front of card)\n- Clear, concise definition (back of card)\n- Additional explanation or context if needed\n\nCreate 10-15 flash cards. Return the response as a JSON array with this format:\n[\n    \x7b\n        \"term\": \"Term or concept name\",\n        \"definition\": \"Clear, concise definition\",\n        \"explanation\": \"Additional context or example (optional)\"\n    \x7d\n]\n\nDocument text:\n").toList

/-- The fixed part of the `generate_summaries` prompt. -/
def summaryPromptHead : List Char :=
  ("You are an expert engineering educator. Based on the following text, create comprehensive summaries for engineering students.\n\nCreate the following sections:\n1. Key Concepts: Main engineering concepts and principles (bullet points)\n2. Main Summary: Overall summary of the document content\n3. Engineering Applications: Real-world applications and use cases\n4. Formulas: Important formulas, equations, or mathematical relationships (if any)\n\nFocus on:\n- Essential engineering principles\n- Practical applications\n- Problem-solving approaches\n- Industry relevance\n- Mathematical relationships\n\nReturn the response as a JSON object with this format:\n\x7b\n    \"key_concepts\": \"• Key concept 1\n• Key concept 2\n...\",\n    \"main_summary\": \"Comprehensive summary of main content\",\n    \"engineering_applications\": \"Real-world applications and use cases\",\n    \"formulas\": \"Important formulas and equations (if applicable)\"\n\x7d\n\nDocument text:\n").toList

/-- Prompt of `generate_questions_answers`: the fixed text followed by the
first 8000 characters of the document. -/
def qaPrompt (text : List Char) : List Char := qaPromptHead ++ text.take 8000

def flashPrompt (text : List Char) : List Char := flashPromptHead ++ text.take 8000

def summaryPrompt (text : List Char) : List Char := summaryPromptHead ++ text.take 10000

/-- Claim C6: the active provider is the highest-ranked provider (gemini,
claude, openai, local in that order) among those whose key is present and
whose client initialised; with no credentials the registry degrades to the
local provider, whose generate call succeeds on any prompt with the
deterministic template content — here evaluated on the three actual prompts
to the three fixed templates. -/
theorem active_provider_priority (env : ProviderEnv)
    (beh : List Char → Provider → Option (List Char))
    (prompt : List Char) (fuel : Nat) (hf : 1 ≤ fuel) :
    getBestAvailableProvider (initProviders env) =
      (if env.geminiKey && env.geminiInitOk then Provider.gemini
       else if env.claudeKey && env.claudeInitOk then Provider.claude
       else if env.openaiKey && env.openaiInitOk then Provider.openai
       else Provider.loc) ∧
    (env.geminiKey = false → env.claudeKey = false → env.openaiKey = false →
      initProviders env = [Provider.loc]) ∧
    generateWithProvider beh [Provider.loc] prompt fuel Provider.loc =
      some (generateLocalContent prompt) ∧
    generateLocalContent (qaPrompt []) = templateQuestions ∧
    generateLocalContent (flashPrompt []) = templateFlashcards ∧
    generateLocalContent (summaryPrompt []) = templateSummary := by
  refine ⟨?_, ?_, ?_, by decide, by decide, by decide⟩
  · by_cases hg : env.geminiKey && env.geminiInitOk <;>
      by_cases hc : env.claudeKey && env.claudeInitOk <;>
        by_cases ho : env.openaiKey && env.openaiInitOk <;>
          simp [initProviders, getBestAvailableProvider, priorityOrder, hg, hc, ho,
            List.find?, List.contains]
  · intro h1 h2 h3
    simp [initProviders, h1, h2, h3]
  · cases fuel with
    | zero => exact absurd hf (by simp)
    | succ n => rfl

theorem active_provider_priority_witness :
    getBestAvailableProvider (initProviders ⟨false, false, false, false, false, false⟩) =
        Provider.loc ∧
      generateWithProvider (fun _ _ => none) [Provider.loc] (flashPrompt []) 1 Provider.loc =
        some (generateLocalContent (flashPrompt [])) := by
  have h := active_provider_priority ⟨false, false, false, false, false, false⟩
    (fun _ _ => none) (flashPrompt []) 1 (by decide)
  exact ⟨by simpa using h.1, h.2.2.1⟩

def okResp : List Char := "OK".toList

/-- Two failing remote providers in front of a healthy one. -/
def behTwoFail : List Char → Provider → Option (List Char) :=
  fun _ p => if p == Provider.openai then some okResp else none

def availGCO : List Provider := [Provider.gemini, Provider.claude, Provider.openai]

def promptX : List Char := "prompt".toList

/-- Claim C1 (refuted; code bug): with gemini and claude both failing and
openai healthy, `_generate_with_provider` keeps excluding only the current
provider, so it revisits the already-failed gemini (visits alternate
gemini, claude, gemini, ...), never reaches openai and never terminates —
instead of the claimed single fallback hop that never retries a failed
provider.  With a single failing provider in front the one-hop fallback
does work (last conjunct). -/
theorem fallback_retries_failed_provider :
    (generateVisits behTwoFail availGCO promptX 6 Provider.gemini).1 =
        [Provider.gemini, Provider.claude, Provider.gemini,
         Provider.claude, Provider.gemini, Provider.claude] ∧
      (∀ fuel, generateWithProvider behTwoFail availGCO promptX fuel Provider.gemini = none) ∧
      (∀ fuel, Provider.openai ∉ (generateVisits behTwoFail availGCO promptX fuel Provider.gemini).1) ∧
      generateWithProvider behTwoFail [Provider.gemini, Provider.openai] promptX 2
          Provider.gemini = some okResp := by
  have hg : callProvider behTwoFail promptX Provider.gemini = none := rfl
  have hc : callProvider behTwoFail promptX Provider.claude = none := rfl
  have hfg : availGCO.filter (fun q => q != Provider.gemini) =
      [Provider.claude, Provider.openai] := rfl
  have hfc : availGCO.filter (fun q => q != Provider.claude) =
      [Provider.gemini, Provider.openai] := rfl
  have key : ∀ fuel,
      generateWithProvider behTwoFail availGCO promptX fuel Provider.gemini = none ∧
      generateWithProvider behTwoFail availGCO promptX fuel Provider.claude = none := by
    intro fuel
    induction fuel with
    | zero => exact ⟨rfl, rfl⟩
    | succ n ih =>
      constructor
      · rw [generateWithProvider, hg, hfg]
        exact ih.2
      · rw [generateWithProvider, hc, hfc]
        exact ih.1
  have keyV : ∀ fuel,
      Provider.openai ∉ (generateVisits behTwoFail availGCO promptX fuel Provider.gemini).1 ∧
      Provider.openai ∉ (generateVisits behTwoFail availGCO promptX fuel Provider.claude).1 := by
    intro fuel
    induction fuel with
    | zero => exact ⟨by simp [generateVisits], by simp [generateVisits]⟩
    | succ n ih =>
      constructor
      · rw [generateVisits, hg, hfg]
        intro hmem
        rcases List.mem_cons.mp hmem with h | h
        · exact Provider.noConfusion h
        · exact ih.2 h
      · rw [generateVisits, hc, hfc]
        intro hmem
        rcases List.mem_cons.mp hmem with h | h
        · exact Provider.noConfusion h
        · exact ih.1 h
  exact ⟨by decide, fun fuel => (key fuel).1, fun fuel => (keyV fuel).1, by decide⟩

/-! Model of the JSON subset handled by `json.loads` as the source uses it:
values are objects, arrays, strings (with the single-character escapes and
`\uXXXX` for valid scalar values), numbers (kept as their lexeme, since the
source never computes with them), booleans and null.  `json.loads` demands a
single value with only whitespace around it. -/

inductive Json where
  | null
  | bool (b : Bool)
  | num (lexeme : List Char)
  | str (s : List Char)
  | arr (items : List Json)
  | obj (fields : List (List Char × Json))

def jsonWS (c : Char) : Bool := c == ' ' || c == '\t' || c == '\n' || c == '\r'

def skipJsonWS (s : List Char) : List Char := s.dropWhile jsonWS

def hexVal (c : Char) : Option Nat :=
  if '0' ≤ c ∧ c ≤ '9' then some (c.toNat - '0'.toNat)
  else if 'a' ≤ c ∧ c ≤ 'f' then some (c.toNat - 'a'.toNat + 10)
  else if 'A' ≤ c ∧ c ≤ 'F' then some (c.toNat - 'A'.toNat + 10)
  else none

def escChar (e : Char) : Option Char :=
  if e == '"' then some '"'
  else if e == '\\' then some '\\'
  else if e == '/' then some '/'
  else if e == 'b' then some '\x08'
  else if e == 'f' then some '\x0c'
  else if e == 'n' then some '\n'
  else if e == 'r' then some '\r'
  else if e == 't' then some '\t'
  else none

/-- Body of a JSON string after its opening quote: returns the decoded
characters and the rest after the closing quote.  Unescaped control
characters are rejected (`strict` default of `json.loads`). -/
def parseStringBody : List Char → Option (List Char × List Char)
  | [] => none
  | '"' :: rest => some ([], rest)
  | '\\' :: 'u' :: h1 :: h2 :: h3 :: h4 :: rest =>
    (match hexVal h1, hexVal h2, hexVal h3, hexVal h4 with
     | some a, some b, some c, some d =>
       let n := ((a * 16 + b) * 16 + c) * 16 + d
       if Nat.isValidChar n then
         match parseStringBody rest with
         | some (tail, rem) => some (Char.ofNat n :: tail, rem)
         | none => none
       else none
     | _, _, _, _ => none)
  | '\\' :: e :: rest =>
    (match escChar e with
     | some c =>
       match parseStringBody rest with
       | some (tail, rem) => some (c :: tail, rem)
       | none => none
     | none => none)
  | c :: rest =>
    if c.toNat < 32 then none
    else
      match parseStringBody rest with
      | some (tail, rem) => some (c :: tail, rem)
      | none => none

def isDigit (c : Char) : Bool := '0' ≤ c && c ≤ '9'

def spanDigits : List Char → List Char × List Char
  | [] => ([], [])
  | c :: rest =>
    if isDigit c then
      let r := spanDigits rest
      (c :: r.1, r.2)
    else ([], c :: rest)

def parseIntDigits : List Char → Option (List Char × List Char)
  | [] => none
  | c :: rest =>
    if c == '0' then some (['0'], rest)
    else if isDigit c then
      let r := spanDigits rest
      some (c :: r.1, r.2)
    else none

def parseFrac : List Char → Option (List Char × List Char)
  | '.' :: rest =>
    (match spanDigits rest with
     | ([], _) => none
     | (ds, rem) => some ('.' :: ds, rem))
  | s => some ([], s)

def parseExp : List Char → Option (List Char × List Char)
  | [] => some ([], [])
  | c :: rest =>
    if c == 'e' || c == 'E' then
      match rest with
      | sgn :: rest2 =>
        if sgn == '+' || sgn == '-' then
          match spanDigits rest2 with
          | ([], _) => none
          | (ds, rem) => some (c :: sgn :: ds, rem)
        else
          (match spanDigits rest with
           | ([], _) => none
           | (ds, rem) => some (c :: ds, rem))
      | [] => none
    else some ([], c :: rest)

/-- A JSON number lexeme `-?(0|[1-9][0-9]*)(.[0-9]+)?([eE][+-]?[0-9]+)?`. -/
def parseNumber (s : List Char) : Option (List Char × List Char) :=
  let sp : List Char × List Char :=
    match s with
    | '-' :: rest => (['-'], rest)
    | _ => ([], s)
  match parseIntDigits sp.2 with
  | none => none
  | some (ip, s2) =>
    match parseFrac s2 with
    | none => none
    | some (fp, s3) =>
      match parseExp s3 with
      | none => none
      | some (ep, s4) => some (sp.1 ++ ip ++ fp ++ ep, s4)

mutual

def parseValue : Nat → List Char → Option (Json × List Char)
  | 0, _ => none
  | fuel + 1, s =>
    match skipJsonWS s with
    | [] => none
    | c :: rest =>
      if c == '"' then
        match parseStringBody rest with
        | some (sv, rem) => some (.str sv, rem)
        | none => none
      else if c == '[' then parseArrayItems fuel rest
      else if c == '\x7b' then parseObjItems fuel rest
      else if c == 'n' then
        match rest with
        | 'u' :: 'l' :: 'l' :: rem => some (.null, rem)
        | _ => none
      else if c == 't' then
        match rest with
        | 'r' :: 'u' :: 'e' :: rem => some (.bool true, rem)
        | _ => none
      else if c == 'f' then
        match rest with
        | 'a' :: 'l' :: 's' :: 'e' :: rem => some (.bool false, rem)
        | _ => none
      else
        match parseNumber (c :: rest) with
        | some (lx, rem) => some (.num lx, rem)
        | none => none

def parseArrayItems : Nat → List Char → Option (Json × List Char)
  | 0, _ => none
  | fuel + 1, s =>
    match skipJsonWS s with
    | ']' :: rem => some (.arr [], rem)
    | _ =>
      match parseValue fuel s with
      | some (v, rem) => parseArrayRest fuel [v] rem
      | none => none

def parseArrayRest : Nat → List Json → List Char → Option (Json × List Char)
  | 0, _, _ => none
  | fuel + 1, acc, s =>
    match skipJsonWS s with
    | ',' :: rest =>
      (match parseValue fuel rest with
       | some (v, rem) => parseArrayRest fuel (v :: acc) rem
       | none => none)
    | ']' :: rest => some (.arr acc.reverse, rest)
    | _ => none

def parsePair : Nat → List Char → Option ((List Char × Json) × List Char)
  | 0, _ => none
  | fuel + 1, s =>
    match skipJsonWS s with
    | '"' :: rest =>
      (match parseStringBody rest with
       | some (k, rem) =>
         match skipJsonWS rem with
         | ':' :: rem2 =>
           (match parseValue fuel rem2 with
            | some (v, rem3) => some ((k, v), rem3)
            | none => none)
         | _ => none
       | none => none)
    | _ => none

def parseObjItems : Nat → List Char → Option (Json × List Char)
  | 0, _ => none
  | fuel + 1, s =>
    match skipJsonWS s with
    | '\x7d' :: rem => some (.obj [], rem)
    | _ =>
      match parsePair fuel s with
      | some (kv, rem) => parseObjRest fuel [kv] rem
      | none => none

def parseObjRest : Nat → List (List Char × Json) → List Char → Option (Json × List Char)
  | 0, _, _ => none
  | fuel + 1, acc, s =>
    match skipJsonWS s with
    | ',' :: rest =>
      (match parsePair fuel rest with
       | some (kv, rem) => parseObjRest fuel (kv :: acc) rem
       | none => none)
    | '\x7d' :: rest => some (.obj acc.reverse, rest)
    | _ => none

end

/-- Model of `json.loads`: parse one value and demand only whitespace after it;
`none` models a raised `ValueError`. -/
def jsonLoads (s : List Char) : Option Json :=
  match parseValue (2 * s.length + 2) s with
  | some (v, rest) => if (skipJsonWS rest).isEmpty then some v else none
  | none => none

example : jsonLoads ("[1, 2]".toList) =
    some (.arr [.num ("1".toList), .num ("2".toList)]) := rfl
example : jsonLoads ("\x7b\"a\": [true, null]\x7d".toList) =
    some (.obj [("a".toList, .arr [.bool true, .null])]) := rfl
example : jsonLoads ("hello [1]".toList) = none := rfl

/-- The greedy regexes `re.search(r"\[.*\]", content, re.DOTALL)` and
`re.search(r"\x7b.*\x7d", content, re.DOTALL)`: a leftmost match starts at
the first opening character, and the greedy `.*` stretches to the last
closing character anywhere after it. -/
def extractSpan (openC closeC : Char) (s : List Char) : Option (List Char) :=
  match s.findIdx? (fun c => c == openC), s.reverse.findIdx? (fun c => c == closeC) with
  | some i, some rj =>
    let j := s.length - 1 - rj
    if i < j then some ((s.drop i).take (j - i + 1)) else none
  | _, _ => none

example : extractSpan '[' ']' ("ab [1] cd".toList) = some ("[1]".toList) := rfl
example : extractSpan '[' ']' ("a [1] b [2]".toList) = some ("[1] b [2]".toList) := rfl
example : extractSpan '[' ']' ("] [".toList) = none := rfl

def questionsKey : List Char := "questions".toList

def flashcardsKey : List Char := "flashcards".toList

def cardsKey : List Char := "cards".toList

/-- Python `dict` built by `json.loads` keeps the last value for a repeated
key; `k in d` and `d[k]` are modelled together by this lookup. -/
def lookupDict (kvs : List (List Char × Json)) (k : List Char) : Option Json :=
  (kvs.reverse.find? (fun kv => kv.1 == k)).map (fun kv => kv.2)

/-- Result normalisation of `generate_questions_answers`: a dict exposing
`questions` unwraps to that value, a list is returned as is, anything else
becomes the empty list. -/
def qaUnwrap : Json → Json
  | .obj kvs =>
    (match lookupDict kvs questionsKey with
     | some v => v
     | none => .arr [])
  | .arr xs => .arr xs
  | _ => .arr []

/-- Result normalisation of `generate_flash_cards`: alias keys `flashcards`
then `cards`. -/
def flashUnwrap : Json → Json
  | .obj kvs =>
    (match lookupDict kvs flashcardsKey with
     | some v => v
     | none =>
       match lookupDict kvs cardsKey with
       | some v => v
       | none => .arr [])
  | .arr xs => .arr xs
  | _ => .arr []

/-- Result normalisation of `generate_summaries`: a dict is returned as is,
anything else becomes the empty dict. -/
def sumUnwrap : Json → Json
  | .obj kvs => .obj kvs
  | _ => .obj []

/-- The shared parse-and-normalise tail of the three generation operations:
empty content returns the empty value; a direct `json.loads` success is
normalised; otherwise the greedy regex span is parsed (a failure of that
inner parse raises into the enclosing `except`, which returns the empty
value too). -/
def contentFromResponse (unwrap : Json → Json) (emptyVal : Json)
    (openC closeC : Char) (content : List Char) : Json :=
  if content.isEmpty then emptyVal
  else
    match jsonLoads content with
    | some v => unwrap v
    | none =>
      match extractSpan openC closeC content with
      | some sub =>
        (match jsonLoads sub with
         | some v => unwrap v
         | none => emptyVal)
      | none => emptyVal

def qaFromContent (content : List Char) : Json :=
  contentFromResponse qaUnwrap (Json.arr []) '[' ']' content

def flashFromContent (content : List Char) : Json :=
  contentFromResponse flashUnwrap (Json.arr []) '[' ']' content

def sumFromContent (content : List Char) : Json :=
  contentFromResponse sumUnwrap (Json.obj []) '\x7b' '\x7d' content

/-- Model of `ContentGenerator.generate_questions_answers` for a given remote
behaviour, available providers and fuel (`none` from the dispatcher models
the non-terminating recursion, whose eventual `RecursionError` the
operation's `except` turns into the empty result). -/
def generateQuestionsAnswers (beh : List Char → Provider → Option (List Char))
    (avail : List Provider) (fuel : Nat) (text : List Char) : Json :=
  if avail.isEmpty then Json.arr []
  else
    match generateWithProvider beh avail (qaPrompt text) fuel
        (getBestAvailableProvider avail) with
    | none => Json.arr []
    | some content => qaFromContent content

/-- Model of `ContentGenerator.generate_flash_cards`. -/
def generateFlashCards (beh : List Char → Provider → Option (List Char))
    (avail : List Provider) (fuel : Nat) (text : List Char) : Json :=
  if avail.isEmpty then Json.arr []
  else
    match generateWithProvider beh avail (flashPrompt text) fuel
        (getBestAvailableProvider avail) with
    | none => Json.arr []
    | some content => flashFromContent content

/-- Model of `ContentGenerator.generate_summaries`. -/
def generateSummaries (beh : List Char → Provider → Option (List Char))
    (avail : List Provider) (fuel : Nat) (text : List Char) : Json :=
  if avail.isEmpty then Json.obj []
  else
    match generateWithProvider beh avail (summaryPrompt text) fuel
        (getBestAvailableProvider avail) with
    | none => Json.obj []
    | some content => sumFromContent content

/-- Modelled from the spec words of claim C2: scan for the first opening
character and return the region up to its matching (depth-balanced) closing
character — the "first balanced top-level bracketed region". -/
def firstBalancedAux (openC closeC : Char) : Nat → List Char → List Char → Option (List Char)
  | _, _, [] => none
  | depth, acc, c :: rest =>
    if c == openC then firstBalancedAux openC closeC (depth + 1) (c :: acc) rest
    else if c == closeC then
      if depth == 1 then some (c :: acc).reverse
      else firstBalancedAux openC closeC (depth - 1) (c :: acc) rest
    else firstBalancedAux openC closeC depth (c :: acc) rest

def firstBalancedSpan (openC closeC : Char) : List Char → Option (List Char)
  | [] => none
  | c :: rest =>
    if c == openC then firstBalancedAux openC closeC 1 [c] rest
    else firstBalancedSpan openC closeC rest

def cexText : List Char := "a [1] b [2]".toList

/-- Claim C2 is false as stated: on a response holding two bracketed
regions, parsing the first balanced region would yield the one-element list
`[1]`, but the code greedily spans from the first `[` to the last `]`,
fails to parse that span, and returns the empty list instead. -/
theorem greedy_extraction_counterexample :
    jsonLoads cexText = none ∧
      firstBalancedSpan '[' ']' cexText = some ("[1]".toList) ∧
      jsonLoads ("[1]".toList) = some (Json.arr [Json.num ("1".toList)]) ∧
      extractSpan '[' ']' cexText = some ("[1] b [2]".toList) ∧
      jsonLoads ("[1] b [2]".toList) = none ∧
      qaFromContent cexText = Json.arr [] ∧
      Json.arr [] ≠ Json.arr [Json.num ("1".toList)] :=
  ⟨rfl, rfl, rfl, rfl, rfl, rfl, by simp⟩

def exampleRaw : List Char :=
  ("Here is the result: [\x7b\"term\":\"A\",\"definition\":\"B\"\x7d] Thanks!").toList

def exampleCard : Json :=
  Json.obj [("term".toList, Json.str ("A".toList)),
            ("definition".toList, Json.str ("B".toList))]

/-- Claim C2 amended: when the direct parse fails, the dispatcher parses
the greedy span from the first opening bracket to the last closing bracket
(not the first balanced region); on the claim's example text, whose greedy
span coincides with its only bracketed region, both generation operations
produce the claimed one-card list. -/
theorem regex_extraction_example :
    extractSpan '[' ']' exampleRaw =
        some ("[\x7b\"term\":\"A\",\"definition\":\"B\"\x7d]".toList) ∧
      jsonLoads exampleRaw = none ∧
      flashFromContent exampleRaw = Json.arr [exampleCard] ∧
      qaFromContent exampleRaw = Json.arr [exampleCard] ∧
      (∀ content, jsonLoads content = none → content.isEmpty = false →
        flashFromContent content =
          (match extractSpan '[' ']' content with
           | some sub =>
             (match jsonLoads sub with
              | some v => flashUnwrap v
              | none => Json.arr [])
           | none => Json.arr [])) := by
  refine ⟨rfl, rfl, rfl, rfl, ?_⟩
  intro content h1 h2
  simp [flashFromContent, contentFromResponse, h1, h2]

theorem regex_extraction_example_witness :
    jsonLoads cexText = none ∧ cexText.isEmpty = false ∧
      flashFromContent cexText =
        (match extractSpan '[' ']' cexText with
         | some sub =>
           (match jsonLoads sub with
            | some v => flashUnwrap v
            | none => Json.arr [])
         | none => Json.arr []) :=
  ⟨rfl, rfl, regex_extraction_example.2.2.2.2 cexText rfl rfl⟩

/-- Claim C7: a parsed response that is directly a list is returned as is;
a wrapping object exposing the operation's alias key (`questions` for the
question call, `flashcards` then `cards` for the flash-card call) unwraps
to the value under that key; anything else yields the empty list — in
particular an object under `flashcards` unwraps to the inner list. -/
theorem response_unwrap (v : Json) :
    (∀ xs, v = .arr xs → flashUnwrap v = v ∧ qaUnwrap v = v) ∧
      (∀ kvs w, v = .obj kvs → lookupDict kvs flashcardsKey = some w →
        flashUnwrap v = w) ∧
      (∀ kvs w, v = .obj kvs → lookupDict kvs flashcardsKey = none →
        lookupDict kvs cardsKey = some w → flashUnwrap v = w) ∧
      (∀ kvs w, v = .obj kvs → lookupDict kvs questionsKey = some w →
        qaUnwrap v = w) ∧
      (∀ kvs, v = .obj kvs → lookupDict kvs flashcardsKey = none →
        lookupDict kvs cardsKey = none → flashUnwrap v = .arr []) ∧
      (∀ kvs, v = .obj kvs → lookupDict kvs questionsKey = none →
        qaUnwrap v = .arr []) ∧
      ((∀ xs, v ≠ .arr xs) → (∀ kvs, v ≠ .obj kvs) →
        flashUnwrap v = .arr [] ∧ qaUnwrap v = .arr []) ∧
      flashUnwrap (.obj [(flashcardsKey, .arr [exampleCard])]) = .arr [exampleCard] := by
  refine ⟨?_, ?_, ?_, ?_, ?_, ?_, ?_, rfl⟩
  · rintro xs rfl
    exact ⟨rfl, rfl⟩
  · rintro kvs w rfl hw
    simp [flashUnwrap, hw]
  · rintro kvs w rfl hw1 hw2
    simp [flashUnwrap, hw1, hw2]
  · rintro kvs w rfl hw
    simp [qaUnwrap, hw]
  · rintro kvs rfl h1 h2
    simp [flashUnwrap, h1, h2]
  · rintro kvs rfl h1
    simp [qaUnwrap, h1]
  · intro harr hobj
    cases v with
    | arr xs => exact absurd rfl (harr xs)
    | obj kvs => exact absurd rfl (hobj kvs)
    | null => exact ⟨rfl, rfl⟩
    | bool b => exact ⟨rfl, rfl⟩
    | num lx => exact ⟨rfl, rfl⟩
    | str s => exact ⟨rfl, rfl⟩

theorem response_unwrap_witness :
    flashUnwrap (.obj [(flashcardsKey, .arr [exampleCard])]) = .arr [exampleCard] :=
  (response_unwrap (.obj [(flashcardsKey, .arr [exampleCard])])).2.1
    [(flashcardsKey, .arr [exampleCard])] (.arr [exampleCard]) rfl rfl

theorem generateWithProvider_congr (beh beh2 : List Char → Provider → Option (List Char))
    (avail : List Provider) (prompt : List Char)
    (h : ∀ p, beh prompt p = beh2 prompt p) :
    ∀ (fuel : Nat) (p : Provider),
      generateWithProvider beh avail prompt fuel p =
        generateWithProvider beh2 avail prompt fuel p := by
  intro fuel
  induction fuel with
  | zero => intro p; rfl
  | succ n ih =>
    intro p
    rw [generateWithProvider, generateWithProvider]
    have hcall : callProvider beh prompt p = callProvider beh2 prompt p := by
      cases p <;> simp [callProvider, h]
    rw [hcall]
    cases callProvider beh2 prompt p with
    | some s => rfl
    | none =>
      cases avail.filter (fun q => q != p) with
      | nil => rfl
      | cons q rest => simpa using ih q

/-- Claim C9: every failure mode of one generation call — no provider at
all, a dispatcher that never returns, an unparseable response, a
wrong-shape response — makes each of the three operations (questions,
flash cards, summaries) return its empty value instead of raising, and
each of the three depends only on the responses to its own prompt, so a
failure injected into one call leaves the other calls unchanged. -/
theorem generation_failure_isolated
    (beh beh2 : List Char → Provider → Option (List Char))
    (avail : List Provider) (fuel : Nat) (text : List Char) :
    (generateQuestionsAnswers beh [] fuel text = Json.arr [] ∧
      generateFlashCards beh [] fuel text = Json.arr [] ∧
      generateSummaries beh [] fuel text = Json.obj []) ∧
      ((generateWithProvider beh avail (qaPrompt text) fuel
          (getBestAvailableProvider avail) = none →
        generateQuestionsAnswers beh avail fuel text = Json.arr []) ∧
       (generateWithProvider beh avail (flashPrompt text) fuel
          (getBestAvailableProvider avail) = none →
        generateFlashCards beh avail fuel text = Json.arr []) ∧
       (generateWithProvider beh avail (summaryPrompt text) fuel
          (getBestAvailableProvider avail) = none →
        generateSummaries beh avail fuel text = Json.obj [])) ∧
      ((∀ content,
        generateWithProvider beh avail (qaPrompt text) fuel
            (getBestAvailableProvider avail) = some content →
        jsonLoads content = none → extractSpan '[' ']' content = none →
        generateQuestionsAnswers beh avail fuel text = Json.arr []) ∧
       (∀ content,
        generateWithProvider beh avail (flashPrompt text) fuel
            (getBestAvailableProvider avail) = some content →
        jsonLoads content = none → extractSpan '[' ']' content = none →
        generateFlashCards beh avail fuel text = Json.arr []) ∧
       (∀ content,
        generateWithProvider beh avail (summaryPrompt text) fuel
            (getBestAvailableProvider avail) = some content →
        jsonLoads content = none → extractSpan '\x7b' '\x7d' content = none →
        generateSummaries beh avail fuel text = Json.obj [])) ∧
      ((∀ content v,
        generateWithProvider beh avail (qaPrompt text) fuel
            (getBestAvailableProvider avail) = some content →
        jsonLoads content = some v → (∀ xs, v ≠ .arr xs) → (∀ kvs, v ≠ .obj kvs) →
        generateQuestionsAnswers beh avail fuel text = Json.arr []) ∧
       (∀ content v,
        generateWithProvider beh avail (flashPrompt text) fuel
            (getBestAvailableProvider avail) = some content →
        jsonLoads content = some v → (∀ xs, v ≠ .arr xs) → (∀ kvs, v ≠ .obj kvs) →
        generateFlashCards beh avail fuel text = Json.arr []) ∧
       (∀ content v,
        generateWithProvider beh avail (summaryPrompt text) fuel
            (getBestAvailableProvider avail) = some content →
        jsonLoads content = some v → (∀ kvs, v ≠ .obj kvs) →
        generateSummaries beh avail fuel text = Json.obj [])) ∧
      (((∀ p, beh (qaPrompt text) p = beh2 (qaPrompt text) p) →
        generateQuestionsAnswers beh avail fuel text =
          generateQuestionsAnswers beh2 avail fuel text) ∧
       ((∀ p, beh (flashPrompt text) p = beh2 (flashPrompt text) p) →
        generateFlashCards beh avail fuel text = generateFlashCards beh2 avail fuel text) ∧
       ((∀ p, beh (summaryPrompt text) p = beh2 (summaryPrompt text) p) →
        generateSummaries beh avail fuel text = generateSummaries beh2 avail fuel text)) := by
  refine ⟨⟨rfl, rfl, rfl⟩, ⟨?_, ?_, ?_⟩, ⟨?_, ?_, ?_⟩, ⟨?_, ?_, ?_⟩, ⟨?_, ?_, ?_⟩⟩
  · intro hnone
    by_cases ha : avail.isEmpty
    · simp [generateQuestionsAnswers, ha]
    · simp [generateQuestionsAnswers, ha, hnone]
  · intro hnone
    by_cases ha : avail.isEmpty
    · simp [generateFlashCards, ha]
    · simp [generateFlashCards, ha, hnone]
  · intro hnone
    by_cases ha : avail.isEmpty
    · simp [generateSummaries, ha]
    · simp [generateSummaries, ha, hnone]
  · intro content hsome h1 h2
    by_cases ha : avail.isEmpty
    · simp [generateQuestionsAnswers, ha]
    · by_cases hc : content.isEmpty
      · simp [generateQuestionsAnswers, ha, hsome, qaFromContent, contentFromResponse, hc]
      · simp [generateQuestionsAnswers, ha, hsome, qaFromContent, contentFromResponse,
          hc, h1, h2]
  · intro content hsome h1 h2
    by_cases ha : avail.isEmpty
    · simp [generateFlashCards, ha]
    · by_cases hc : content.isEmpty
      · simp [generateFlashCards, ha, hsome, flashFromContent, contentFromResponse, hc]
      · simp [generateFlashCards, ha, hsome, flashFromContent, contentFromResponse,
          hc, h1, h2]
  · intro content hsome h1 h2
    by_cases ha : avail.isEmpty
    · simp [generateSummaries, ha]
    · by_cases hc : content.isEmpty
      · simp [generateSummaries, ha, hsome, sumFromContent, contentFromResponse, hc]
      · simp [generateSummaries, ha, hsome, sumFromContent, contentFromResponse,
          hc, h1, h2]
  · intro content v hsome h1 harr hobj
    by_cases ha : avail.isEmpty
    · simp [generateQuestionsAnswers, ha]
    · by_cases hc : content.isEmpty
      · simp [generateQuestionsAnswers, ha, hsome, qaFromContent, contentFromResponse, hc]
      · have hun : qaUnwrap v = Json.arr [] := by
          cases v with
          | arr xs => exact absurd rfl (harr xs)
          | obj kvs => exact absurd rfl (hobj kvs)
          | null => rfl
          | bool b => rfl
          | num lx => rfl
          | str s => rfl
        simp [generateQuestionsAnswers, ha, hsome, qaFromContent, contentFromResponse,
          hc, h1, hun]
  · intro content v hsome h1 harr hobj
    by_cases ha : avail.isEmpty
    · simp [generateFlashCards, ha]
    · by_cases hc : content.isEmpty
      · simp [generateFlashCards, ha, hsome, flashFromContent, contentFromResponse, hc]
      · have hun : flashUnwrap v = Json.arr [] := by
          cases v with
          | arr xs => exact absurd rfl (harr xs)
          | obj kvs => exact absurd rfl (hobj kvs)
          | null => rfl
          | bool b => rfl
          | num lx => rfl
          | str s => rfl
        simp [generateFlashCards, ha, hsome, flashFromContent, contentFromResponse,
          hc, h1, hun]
  · intro content v hsome h1 hobj
    by_cases ha : avail.isEmpty
    · simp [generateSummaries, ha]
    · by_cases hc : content.isEmpty
      · simp [generateSummaries, ha, hsome, sumFromContent, contentFromResponse, hc]
      · have hun : sumUnwrap v = Json.obj [] := by
          cases v with
          | obj kvs => exact absurd rfl (hobj kvs)
          | arr xs => rfl
          | null => rfl
          | bool b => rfl
          | num lx => rfl
          | str s => rfl
        simp [generateSummaries, ha, hsome, sumFromContent, contentFromResponse,
          hc, h1, hun]
  · intro hagree
    unfold generateQuestionsAnswers
    rw [generateWithProvider_congr beh beh2 avail (qaPrompt text) hagree fuel]
  · intro hagree
    unfold generateFlashCards
    rw [generateWithProvider_congr beh beh2 avail (flashPrompt text) hagree fuel]
  · intro hagree
    unfold generateSummaries
    rw [generateWithProvider_congr beh beh2 avail (summaryPrompt text) hagree fuel]

theorem generation_failure_isolated_witness :
    generateQuestionsAnswers (fun _ _ => none) [] 0 [] = Json.arr [] ∧
      generateQuestionsAnswers (fun _ _ => none) [Provider.gemini] 0 [] = Json.arr [] ∧
      generateFlashCards (fun _ _ => none) [Provider.gemini] 0 [] = Json.arr [] ∧
      generateSummaries (fun _ _ => none) [Provider.gemini] 0 [] = Json.obj [] ∧
      generateFlashCards (fun _ _ => some ("no json here".toList)) [Provider.gemini] 1 []
        = Json.arr [] ∧
      generateSummaries (fun _ _ => some ("true".toList)) [Provider.gemini] 1 []
        = Json.obj [] ∧
      generateFlashCards (fun _ _ => none) [Provider.gemini] 0 [] =
        generateFlashCards
          (fun pr _ => if pr == qaPrompt [] then some [] else none)
          [Provider.gemini] 0 [] ∧
      generateQuestionsAnswers (fun _ _ => none) [Provider.gemini] 0 [] =
        generateQuestionsAnswers
          (fun pr _ => if pr == flashPrompt [] then some [] else none)
          [Provider.gemini] 0 [] := by
  refine ⟨?_, ?_, ?_, ?_, ?_, ?_, ?_, ?_⟩
  · exact (generation_failure_isolated (fun _ _ => none) (fun _ _ => none)
      [] 0 []).1.1
  · exact (generation_failure_isolated (fun _ _ => none) (fun _ _ => none)
      [Provider.gemini] 0 []).2.1.1 rfl
  · exact (generation_failure_isolated (fun _ _ => none) (fun _ _ => none)
      [Provider.gemini] 0 []).2.1.2.1 rfl
  · exact (generation_failure_isolated (fun _ _ => none) (fun _ _ => none)
      [Provider.gemini] 0 []).2.1.2.2 rfl
  · exact (generation_failure_isolated (fun _ _ => some ("no json here".toList))
      (fun _ _ => none) [Provider.gemini] 1 []).2.2.1.2.1
      ("no json here".toList) rfl rfl rfl
  · exact (generation_failure_isolated (fun _ _ => some ("true".toList))
      (fun _ _ => none) [Provider.gemini] 1 []).2.2.2.1.2.2
      ("true".toList) (Json.bool true) rfl rfl (fun kvs h => Json.noConfusion h)
  · exact (generation_failure_isolated (fun _ _ => none)
      (fun pr _ => if pr == qaPrompt [] then some [] else none)
      [Provider.gemini] 0 []).2.2.2.2.2.1 (fun p => rfl)
  · exact (generation_failure_isolated (fun _ _ => none)
      (fun pr _ => if pr == flashPrompt [] then some [] else none)
      [Provider.gemini] 0 []).2.2.2.2.1 (fun p => rfl)

end JoshBot
